import Mathlib

/-!
Verification development for the PiyP Reference Manager backend.

The definitions below are a shallow embedding of the Python source:
  - src/services/agent_client.py      (get_task_status, export_citations)
  - src/services/supabase_client.py   (search_papers, update_reading_status,
                                       and the executor-delegation call traces)
  - src/main.py                       (ConnectionManager)
  - src/services/pdf_metadata_extractor.py (the metadata extraction cascade)

Python strings are modelled as Lean String / List Char; Python regular
expression character classes (\d, \s, \w, upper/lower) are modelled by their
ASCII meaning.  Floating point confidence values are modelled exactly as
rationals (the source only ever assigns decimal literals and compares for
identity, so this is faithful).  Dict fields that may be absent are Option
fields.  Effectful phases (PyPDF2 parsing, the Crossref HTTP query) are
parameters of the embedding; exceptions are modelled with Except.
-/

namespace RefMan

/-! ### agent_client.py : get_task_status (src/services/agent_client.py lines 402-410) -/

structure TaskStatus where
  task_id : String
  status : String
  progress : Rat
  created_at : String
deriving DecidableEq, Repr

/-- Embedding of AgentClient.get_task_status: returns a hard-coded mock status
dict echoing the task_id.  The Python return type is Optional[dict]. -/
def get_task_status (task_id : String) : Option TaskStatus :=
  some { task_id := task_id, status := "running", progress := 0.5,
         created_at := "2024-10-19T12:00:00Z" }

/-! ### agent_client.py : export_citations (src/services/agent_client.py lines 141-148) -/

structure CitationExport where
  success : Bool
  content : String
  filename : String
  paper_count : Nat
deriving DecidableEq, Repr

/-- Python str.upper (ASCII model), written on the character list so that it
reduces definitionally. -/
def strUpper (s : String) : String :=
  String.mk (s.data.map Char.toUpper)

/-- Embedding of AgentClient.export_citations: a mock that formats the style
and the number of paper ids into a canned string. -/
def export_citations (paper_ids : List String) (style : String) (format : String)
    (user_id : String) : CitationExport :=
  { success := true
    content := "Mock " ++ strUpper style ++ " citations for "
               ++ toString paper_ids.length ++ " papers"
    filename := "citations." ++ format
    paper_count := paper_ids.length }

/-! ### supabase_client.py : update_reading_status (lines 506-548)

The database call itself is external; what the code computes is the record
passed to upsert.  Absent dict keys are modelled as none. -/

structure ReadingStatusUpsert where
  paper_id : String
  user_id : String
  status : Option String
  started_at : Option String
  completed_at : Option String
  starred : Option Bool
  rating : Option Int
deriving DecidableEq, Repr

/-- Embedding of the record built by SupabaseClient.update_reading_status and
passed to the paper_reading_status upsert.  The source inserts status into
updates only when the argument is not None, adds started_at="now()" when the
new status is "reading" and completed_at="now()" when it is "read", and adds
starred / rating only when those arguments are not None. -/
def update_reading_status_record (paper_id : String) (user_id : String)
    (status : Option String) (starred : Option Bool) (rating : Option Int) :
    ReadingStatusUpsert :=
  { paper_id := paper_id
    user_id := user_id
    status := status
    started_at := if status = some "reading" then some "now()" else none
    completed_at := if status = some "read" then some "now()" else none
    starred := starred
    rating := rating }

/-! ### supabase_client.py : search_papers (lines 75-167)

The research_papers table is modelled as a list of rows holding the two
selected columns.  ilike with a pattern of the shape percent-text-percent is
modelled as case-insensitive substring containment (the source always wraps
the user text in percent signs). -/

structure DbPaper where
  paper_id : String
  title : String
deriving DecidableEq, Repr

structure SearchFilters where
  title_contains : Option String := none
deriving DecidableEq, Repr

structure SearchResultPaper where
  paper_id : String
  title : String
  authors : List String
  year : Option Int
  venue : String
  doi : String
  arxiv_id : String
  citation_count : Int
  date_added : String
  status : String
  starred : Bool
  rating : Option Int
deriving DecidableEq, Repr

structure SearchResult where
  success : Bool
  papers : List SearchResultPaper
  total : Nat
  offset : Nat
  limit : Nat
deriving DecidableEq, Repr

/-- Case-insensitive substring test, modelling ilike with percent wildcards on
both sides of the needle. -/
def strContainsCI (hay : String) (needle : String) : Bool :=
  decide (List.IsInfix (needle.data.map Char.toLower) (hay.data.map Char.toLower))

/-- Insertion into a list sorted by title ascending. -/
def insertByTitle (p : DbPaper) : List DbPaper → List DbPaper
  | [] => [p]
  | q :: rest => if p.title ≤ q.title then p :: q :: rest else q :: insertByTitle p rest

/-- Sort by title ascending, modelling order('title', desc=False). -/
def sortByTitle : List DbPaper → List DbPaper
  | [] => []
  | p :: rest => insertByTitle p (sortByTitle rest)

/-- Transformation of a row into the response dict with hard-coded defaults,
as in the loop over result.data in search_papers. -/
def toSearchResultPaper (p : DbPaper) : SearchResultPaper :=
  { paper_id := p.paper_id
    title := p.title
    authors := []
    year := none
    venue := ""
    doi := ""
    arxiv_id := ""
    citation_count := 0
    date_added := "2024-01-01T00:00:00Z"
    status := "to_read"
    starred := false
    rating := none }

/-- Embedding of SupabaseClient.search_papers on the success path.  The
user_id argument is accepted but never used to build the query (the source
carries a TODO to add user filtering later).  The total count is taken over
the whole table without the search filters, exactly as in the source. -/
def search_papers (db : List DbPaper) (user_id : String) (query : String)
    (filters : Option SearchFilters) (sort : Option String)
    (limit : Nat) (offset : Nat) : SearchResult :=
  let q1 := db
  let q2 := match filters with
    | some f => match f.title_contains with
      | some pat => q1.filter (fun p => strContainsCI p.title pat)
      | none => q1
    | none => q1
  let q3 := if query ≠ "" then q2.filter (fun p => strContainsCI p.title query) else q2
  let sorted := match sort with
    | some s => if s.startsWith "title_asc" then sortByTitle q3 else sortByTitle q3
    | none => sortByTitle q3
  let total := db.length
  let page := (sorted.drop offset).take limit
  { success := true
    papers := page.map toSearchResultPaper
    total := total
    offset := offset
    limit := limit }

/-! ### main.py : ConnectionManager (lines 63-117)

WebSocket connections are modelled as natural-number identifiers; the dict of
active connections is a partial map from user id to a finite set of
connections (a key being present is distinct from a key holding the empty
set, as in a Python dict).  The outcome of send_json on each connection is a
parameter sendOk; an exception during send is sendOk = false. -/

abbrev Conn := Nat

abbrev ConnState := String → Option (Finset Conn)

def updateKey (st : ConnState) (k : String) (v : Option (Finset Conn)) : ConnState :=
  fun u => if u = k then v else st u

/-- Embedding of ConnectionManager.connect: create an empty set for an unseen
user id, then add the websocket. -/
def connect (st : ConnState) (ws : Conn) (uid : String) : ConnState :=
  let st1 := match st uid with
    | none => updateKey st uid (some ∅)
    | some _ => st
  match st1 uid with
  | some s => updateKey st1 uid (some (insert ws s))
  | none => st1

/-- Embedding of ConnectionManager.disconnect: discard the websocket and
delete the key when its set becomes empty. -/
def disconnect (st : ConnState) (ws : Conn) (uid : String) : ConnState :=
  match st uid with
  | none => st
  | some s =>
    let s' := s.erase ws
    if s' = ∅ then updateKey st uid none else updateKey st uid (some s')

/-- Embedding of ConnectionManager.send_personal_message.  Returns the new
state together with the set of connections the message was attempted on.
The source collects the connections whose send raised into a set and then
discards each of them from the user's set; the key itself is kept even when
the set becomes empty. -/
def send_personal_message (sendOk : Conn → Bool) (message : String)
    (st : ConnState) (uid : String) : ConnState × Finset Conn :=
  match st uid with
  | none => (st, ∅)
  | some s =>
    let disconnected := s.filter (fun c => sendOk c = false)
    (updateKey st uid (some (s \ disconnected)), s)

/-- Embedding of ConnectionManager.broadcast_to_user: builds an event message
(the JSON rendering is abstracted into a plain string) and delegates to
send_personal_message. -/
def broadcast_to_user (sendOk : Conn → Bool) (st : ConnState) (uid : String)
    (event : String) (data : String) (timestamp : String) : ConnState × Finset Conn :=
  let message := "event=" ++ event ++ ";data=" ++ data ++ ";timestamp=" ++ timestamp
  send_personal_message sendOk message st uid

/-- The registry invariant of claim C8: every key present in the dict maps to
a non-empty connection set. -/
def ConnInvariant (st : ConnState) : Prop :=
  ∀ u s, st u = some s → s.Nonempty

/-- Concrete one-user state used to exercise send_personal_message. -/
def exConnState : ConnState :=
  fun u => if u = "alice" then some {0} else none

/-! ### pdf_metadata_extractor.py : character classes and regex building blocks

The DOI patterns of _find_doi_in_text and the text heuristics of
_extract_metadata_from_text are specific enough that each regular expression
is embedded as a dedicated matcher over List Char (no general regex engine is
needed: every quantified subpattern is followed by a character it cannot
consume, so the greedy match never backtracks).  re.finditer scanning is
embedded as a left-to-right scan producing the non-overlapping matches. -/

/-- ASCII model of the Python regex class backslash-s. -/
def isSpaceA (c : Char) : Bool :=
  c = ' ' || c = '\t' || c = '\n' || c = '\r' || c = Char.ofNat 11 || c = Char.ofNat 12

/-- ASCII model of the Python regex class backslash-w. -/
def isWordA (c : Char) : Bool :=
  c.isAlphanum || c = '_'

/-- Case-insensitive literal match: pat is given in lowercase; on success the
remaining input is returned. -/
def matchCI : List Char → List Char → Option (List Char)
  | [], l => some l
  | _ :: _, [] => none
  | p :: ps, c :: cs => if c.toLower = p then matchCI ps cs else none

/-- Characters allowed after the slash by the capture groups of the DOI
patterns: anything that is not whitespace and not a closing bracket. -/
def isDoiTailChar (c : Char) : Bool :=
  !isSpaceA c && c != ']'

/-- Match the raw DOI pattern (10 dot, four or more digits, slash, one or
more non-space non-bracket characters) at the head of the input, returning
the matched text and the rest. -/
def matchRawDoiAt : List Char → Option (List Char × List Char)
  | '1' :: '0' :: '.' :: rest =>
    let ds := rest.takeWhile Char.isDigit
    let rest2 := rest.dropWhile Char.isDigit
    if ds.length < 4 then none
    else
      match rest2 with
      | '/' :: rest3 =>
        let body := rest3.takeWhile isDoiTailChar
        let rest4 := rest3.dropWhile isDoiTailChar
        if body.isEmpty then none
        else some ('1' :: '0' :: '.' :: (ds ++ '/' :: body), rest4)
      | _ => none
  | _ => none

/-- Pattern 1 and 2 of _find_doi_in_text: a doi colon label (case
insensitive, so the DOI-colon variant coincides with it), optional
whitespace, then the raw DOI; the capture group is the raw DOI. -/
def matchDoiColonAt (l : List Char) : Option (List Char × List Char) :=
  match matchCI ['d', 'o', 'i', ':'] l with
  | none => none
  | some rest => matchRawDoiAt (rest.dropWhile isSpaceA)

/-- Pattern 3: an http or https doi.org URL followed by the raw DOI capture
group.  The optional s of https? is resolved by trying the two literals. -/
def matchDoiOrgAt (l : List Char) : Option (List Char × List Char) :=
  match matchCI "https://doi.org/".data l with
  | some rest => matchRawDoiAt rest
  | none =>
    match matchCI "http://doi.org/".data l with
    | some rest => matchRawDoiAt rest
    | none => none

/-- Pattern 4: the dx.doi.org variant. -/
def matchDxDoiOrgAt (l : List Char) : Option (List Char × List Char) :=
  match matchCI "https://dx.doi.org/".data l with
  | some rest => matchRawDoiAt rest
  | none =>
    match matchCI "http://dx.doi.org/".data l with
    | some rest => matchRawDoiAt rest
    | none => none

/-- Left-to-right scan collecting the non-overlapping matches of a matcher,
as re.finditer does.  Every matcher above consumes at least one character on
success, so fuel equal to the input length is always sufficient. -/
def scanAux (m : List Char → Option (List Char × List Char)) :
    Nat → List Char → List (List Char)
  | 0, _ => []
  | _, [] => []
  | fuel + 1, c :: rest =>
    match m (c :: rest) with
    | some (g, rest') => g :: scanAux m fuel rest'
    | none => scanAux m fuel rest

/-- All capture groups of a pattern in the text, leftmost first. -/
def reFinditer (m : List Char → Option (List Char × List Char))
    (l : List Char) : List (List Char) :=
  scanAux m l.length l

/-- Candidate DOIs of _find_doi_in_text in the order the source tries them:
the five patterns in order (the first two coincide under IGNORECASE), each
scanned left to right. -/
def doiCandidates (l : List Char) : List (List Char) :=
  reFinditer matchDoiColonAt l ++ reFinditer matchDoiColonAt l
    ++ reFinditer matchDoiOrgAt l ++ reFinditer matchDxDoiOrgAt l
    ++ reFinditer matchRawDoiAt l

/-- Characters stripped from the right of a candidate DOI. -/
def trailingJunk (c : Char) : Bool :=
  c = '.' || c = ',' || c = ';' || c = ':' || c = ')' || c = ']'

/-- Embedding of the rstrip call cleaning a candidate DOI. -/
def rstripJunk (l : List Char) : List Char :=
  (l.reverse.dropWhile trailingJunk).reverse

/-- Embedding of PDFMetadataExtractor._is_valid_doi: the anchored pattern
10 dot, at least four digits, slash, one or more non-space characters up to
the end (a Python dollar anchor also accepts a single trailing newline),
conjoined with a length strictly greater than 10. -/
def isValidDoi (l : List Char) : Bool :=
  (match l with
   | '1' :: '0' :: '.' :: rest =>
     let ds := rest.takeWhile Char.isDigit
     let rest2 := rest.dropWhile Char.isDigit
     decide (4 ≤ ds.length) &&
       (match rest2 with
        | '/' :: rest3 =>
          let body := rest3.takeWhile (fun c => !isSpaceA c)
          let tail := rest3.dropWhile (fun c => !isSpaceA c)
          !body.isEmpty && (tail.isEmpty || tail == ['\n'])
        | _ => false)
   | _ => false)
  && decide (10 < l.length)

/-- Embedding of PDFMetadataExtractor._find_doi_in_text: empty text yields
None; otherwise the candidates of the five patterns are cleaned with rstrip
and the first one passing _is_valid_doi is returned. -/
def find_doi_in_text (text : String) : Option String :=
  if text = "" then none
  else (((doiCandidates text.data).map rstripJunk).find? isValidDoi).map
    (fun l => String.mk l)

/-! ### pdf_metadata_extractor.py : _clean_filename_for_title (lines 370-389) -/

/-- Everything before the last dot, modelling rsplit with a dot and maxsplit
one, guarded by the containment test of the source. -/
def beforeLastDot (l : List Char) : List Char :=
  if '.' ∈ l then ((l.reverse.dropWhile (fun c => c != '.')).drop 1).reverse else l

/-- Python str.split with no argument: split on whitespace runs, dropping
empty pieces. -/
def splitWs (l : List Char) : List (List Char) :=
  (l.splitOnP isSpaceA).filter (fun w => !w.isEmpty)

/-- Python str.capitalize: first character uppercased, the rest lowercased
(ASCII model). -/
def capitalizeWord : List Char → List Char
  | [] => []
  | c :: cs => c.toUpper :: cs.map Char.toLower

/-- File name lead words removed by _clean_filename_for_title. -/
def leadWordsToRemove : List (List Char) :=
  ["paper".data, "article".data, "document".data, "file".data]

/-- Embedding of PDFMetadataExtractor._clean_filename_for_title: drop the
extension after the last dot, turn underscores and hyphens into spaces, drop
a leading filler word, capitalize every word, and fall back to the original
filename when the result is empty. -/
def clean_filename_for_title (filename : String) : String :=
  let title0 := beforeLastDot filename.data
  let title1 := title0.map (fun c => if c = '_' then ' ' else if c = '-' then ' ' else c)
  let words := splitWs title1
  let words2 := match words with
    | w :: rest => if (w.map Char.toLower) ∈ leadWordsToRemove then rest else words
    | [] => words
  let title2 := List.intercalate [' '] words2
  let title3 := List.intercalate [' '] ((splitWs title2).map capitalizeWord)
  if title3.isEmpty then filename else String.mk title3

/-! ### pdf_metadata_extractor.py : _extract_metadata_from_text (lines 286-326) -/

/-- Python str.split on a newline separator, keeping empty pieces. -/
def splitNl : List Char → List (List Char)
  | [] => [[]]
  | c :: rest =>
    let r := splitNl rest
    if c = '\n' then [] :: r
    else match r with
      | h :: t => (c :: h) :: t
      | [] => [[c]]

/-- Python str.strip with no argument (ASCII whitespace model). -/
def stripWs (l : List Char) : List Char :=
  ((l.dropWhile isSpaceA).reverse.dropWhile isSpaceA).reverse

/-- The title heuristic applied to one stripped line: length strictly between
20 and 200, first character uppercase, and some lowercase character. -/
def looksLikeTitle (l : List Char) : Bool :=
  decide (20 < l.length) && decide (l.length < 200) &&
    (match l with
     | c :: cs => c.isUpper && (c :: cs).any Char.isLower
     | [] => false)

/-- First qualifying title line among the given lines, each stripped, as in
the for loop with its break. -/
def findTitleLine (lines : List (List Char)) : Option (List Char) :=
  (lines.map stripWs).find? looksLikeTitle

/-- Match of the year pattern (word boundary, group of 19 or 20, two more
digits, word boundary) at the head of the input; the leading word boundary is
checked by the caller.  Returns the capture group (only the century digits,
as re.findall does for a pattern with one group) and the rest. -/
def matchYearAt : List Char → Option (List Char × List Char)
  | c1 :: c2 :: c3 :: c4 :: rest =>
    if ((c1 = '1' && c2 = '9') || (c1 = '2' && c2 = '0')) && c3.isDigit && c4.isDigit
        && (match rest with | [] => true | c :: _ => !isWordA c) then
      some ([c1, c2], rest)
    else none
  | _ => none

/-- Scan for year matches, tracking whether the previous character is a word
character so that the leading word boundary can be checked.  After a match
the previous character is a digit, hence a word character. -/
def scanYearsAux : Nat → Bool → List Char → List (List Char)
  | 0, _, _ => []
  | _, _, [] => []
  | fuel + 1, prevWord, c :: rest =>
    if !prevWord then
      match matchYearAt (c :: rest) with
      | some (g, rest') => g :: scanYearsAux fuel true rest'
      | none => scanYearsAux fuel (isWordA c) rest
    else scanYearsAux fuel (isWordA c) rest

/-- All group captures of the year pattern in the text.  Because the pattern
has a capture group, re.findall returns only the century digits (19 or 20);
the source then filters them against 1990, which can never hold — embedded
faithfully below. -/
def findYearGroups (l : List Char) : List (List Char) :=
  scanYearsAux l.length false l

/-- Numeric value of a digit string, as int() on the findall results. -/
def digitsToNat (l : List Char) : Nat :=
  l.foldl (fun acc c => acc * 10 + (c.toNat - 48)) 0

/-- Match one name part (an uppercase letter followed by one or more
lowercase letters) at the head of the input. -/
def matchNamePart : List Char → Option (List Char × List Char)
  | c :: rest =>
    if c.isUpper then
      let ls := rest.takeWhile Char.isLower
      if ls.isEmpty then none else some (c :: ls, rest.dropWhile Char.isLower)
    else none
  | [] => none

/-- Greedy repetition of (whitespace then a name part), the starred group of
the author pattern.  Each iteration consumes at least two characters, so fuel
equal to the input length suffices. -/
def matchMoreNames : Nat → List Char → List Char × List Char
  | 0, l => ([], l)
  | fuel + 1, l =>
    let ws := l.takeWhile isSpaceA
    if ws.isEmpty then ([], l)
    else
      match matchNamePart (l.dropWhile isSpaceA) with
      | none => ([], l)
      | some (np, rest') =>
        let (more, rest'') := matchMoreNames fuel rest'
        (ws ++ np ++ more, rest'')

/-- Match of the author pattern (name part, a literal space, a second name
part, then optional further whitespace-separated name parts) at the head of
the input. -/
def matchAuthorAt (l : List Char) : Option (List Char × List Char) :=
  match matchNamePart l with
  | none => none
  | some (n1, r1) =>
    match r1 with
    | ' ' :: r2 =>
      match matchNamePart r2 with
      | none => none
      | some (n2, r3) =>
        let (more, r4) := matchMoreNames r3.length r3
        some (n1 ++ ' ' :: (n2 ++ more), r4)
    | _ => none

/-- Result of _extract_metadata_from_text: the keys the function may set. -/
structure TextMeta where
  title : Option String := none
  year : Option Int := none
  authors : Option (List String) := none
deriving DecidableEq, Repr

/-- Embedding of PDFMetadataExtractor._extract_metadata_from_text: title from
the first ten lines, year from the filtered findall groups (never set, since
findall returns only the century group), authors from the pattern matches in
the first thousand characters, at most five. -/
def extract_metadata_from_text (currentYear : Int) (text : String) : TextMeta :=
  if text = "" then {}
  else
    let l := text.data
    let title := (findTitleLine ((splitNl l).take 10)).map (fun w => String.mk w)
    let years := findYearGroups l
    let yearNumbers := (years.map (fun g => (digitsToNat g : Int))).filter
      (fun y => decide (1990 ≤ y) && decide (y ≤ currentYear))
    let year := yearNumbers.max?
    let auths := (reFinditer matchAuthorAt (l.take 1000)).take 5
    let authors := if auths.isEmpty then none else some (auths.map (fun w => String.mk w))
    { title := title, year := year, authors := authors }

/-! ### pdf_metadata_extractor.py : extract_pdf_metadata (lines 34-110)

The effectful phases are parameters: basic reads the PDF document properties
(PyPDF2), firstPageText extracts the first page text, crossref performs the
Crossref HTTP lookup for a DOI.  Each is an Except so that a raising phase —
caught by the try/except of extract_pdf_metadata — can be modelled; the
partial metadata built before the raise is carried into the handler, as the
mutable dict is in the source. -/

structure Metadata where
  title : String
  authors : List String
  year : Option Int
  venue : String
  doi : String
  abstract : String
  subject : String
  keywords : String
  citation_count : Int
  extraction_method : String
  extraction_confidence : Rat
  publisher : Option String
  error : Option String
deriving DecidableEq, Repr

/-- The initial metadata dict of extract_pdf_metadata. -/
def initMetadata : Metadata :=
  { title := "", authors := [], year := none, venue := "", doi := "",
    abstract := "", subject := "", keywords := "", citation_count := 0,
    extraction_method := "none", extraction_confidence := 0.0,
    publisher := none, error := none }

/-- Keys that _extract_basic_pdf_properties may return (absent keys are
none). -/
structure BasicProps where
  title : Option String := none
  authors : Option (List String) := none
  subject : Option String := none
  keywords : Option String := none
  year : Option Int := none
deriving DecidableEq, Repr

/-- dict.update with the basic-properties keys. -/
def applyBasic (m : Metadata) (bp : BasicProps) : Metadata :=
  { m with
    title := bp.title.getD m.title
    authors := bp.authors.getD m.authors
    subject := bp.subject.getD m.subject
    keywords := bp.keywords.getD m.keywords
    year := match bp.year with | some y => some y | none => m.year }

/-- Keys that _query_crossref_api may return on success; authors is always
present there (possibly empty), doi is always set to the queried DOI. -/
structure CrossrefMeta where
  title : Option String := none
  authors : List String := []
  year : Option Int := none
  venue : Option String := none
  abstract : Option String := none
  citation_count : Option Int := none
  publisher : Option String := none
  keywords : Option String := none
deriving DecidableEq, Repr

/-- dict.update with the Crossref keys. -/
def applyCrossref (m : Metadata) (doi : String) (cr : CrossrefMeta) : Metadata :=
  { m with
    title := cr.title.getD m.title
    authors := cr.authors
    year := match cr.year with | some y => some y | none => m.year
    venue := cr.venue.getD m.venue
    doi := doi
    abstract := cr.abstract.getD m.abstract
    citation_count := match cr.citation_count with | some n => n | none => m.citation_count
    publisher := match cr.publisher with | some p => some p | none => m.publisher
    keywords := cr.keywords.getD m.keywords }

/-- dict.update with the text-parsing keys. -/
def applyText (m : Metadata) (tm : TextMeta) : Metadata :=
  { m with
    title := tm.title.getD m.title
    year := match tm.year with | some y => some y | none => m.year
    authors := tm.authors.getD m.authors }

/-- Environment of one extract_pdf_metadata call: the outcomes of the
effectful phases and the current year used by the text heuristics. -/
structure ExtractEnv where
  basic : Except String BasicProps
  firstPageText : Except String String
  crossref : String → Except String (Option CrossrefMeta)
  currentYear : Int

/-- Phase 4 of the cascade: when the first page text is non-empty, merge the
text heuristics and mark the method as text_parsing. -/
def textPhase (currentYear : Int) (m1 : Metadata) (text : String) : Metadata :=
  if text ≠ "" then
    { applyText m1 (extract_metadata_from_text currentYear text) with
      extraction_method := "text_parsing", extraction_confidence := 0.6 }
  else m1

/-- The tail of the cascade once no Crossref result was obtained: the text
phase, then the pdf_properties marking or the filename fallback. -/
def finishNoCrossref (currentYear : Int) (filename : String) (m1 : Metadata)
    (text : String) : Metadata :=
  let m2 := textPhase currentYear m1 text
  if m2.title ≠ "" ∨ m2.authors ≠ [] then
    if m2.extraction_method = "none" then
      { m2 with extraction_method := "pdf_properties", extraction_confidence := 0.7 }
    else m2
  else
    { m2 with title := clean_filename_for_title filename,
              extraction_method := "filename", extraction_confidence := 0.3 }

/-- The body of the try block of extract_pdf_metadata.  A raising phase
short-circuits with the exception message and the metadata built so far. -/
def extractCore (env : ExtractEnv) (filename : String) :
    Except (String × Metadata) Metadata :=
  let m0 := initMetadata
  match env.basic with
  | .error e => .error (e, m0)
  | .ok bp =>
    let m1 := applyBasic m0 bp
    match env.firstPageText with
    | .error e => .error (e, m1)
    | .ok text =>
      match find_doi_in_text text with
      | some doi =>
        match env.crossref doi with
        | .error e => .error (e, m1)
        | .ok (some cr) =>
          .ok { applyCrossref m1 doi cr with
                extraction_method := "crossref", extraction_confidence := 0.95 }
        | .ok none => .ok (finishNoCrossref env.currentYear filename m1 text)
      | none => .ok (finishNoCrossref env.currentYear filename m1 text)

/-- Embedding of PDFMetadataExtractor.extract_pdf_metadata: the try body, or
the except handler that overwrites title, method, confidence and the error
field on the metadata built so far. -/
def extract_pdf_metadata (env : ExtractEnv) (filename : String) : Metadata :=
  match extractCore env filename with
  | .ok m => m
  | .error (e, m) =>
    { m with title := clean_filename_for_title filename,
             extraction_method := "error", extraction_confidence := 0.1,
             error := some e }

/-- The Crossref stage yielded nothing usable for a text: either no DOI was
found, or the lookup returned None. -/
def noCrossrefResult (env : ExtractEnv) (text : String) : Prop :=
  find_doi_in_text text = none
    ∨ ∃ d, find_doi_in_text text = some d ∧ env.crossref d = Except.ok none

/-- Environment of the C1 counterexample: no PDF properties, a short first
page text without a DOI, a Crossref stage that never answers. -/
def envC1 : ExtractEnv :=
  { basic := .ok {}, firstPageText := .ok "hi",
    crossref := fun _ => .ok none, currentYear := 2026 }

/-- Environment whose basic-properties phase raises. -/
def envC2 : ExtractEnv :=
  { basic := .error "boom", firstPageText := .ok "",
    crossref := fun _ => .ok none, currentYear := 2026 }

/-- Environment with a property title only and an empty first page. -/
def envProps : ExtractEnv :=
  { basic := .ok { title := some "T" }, firstPageText := .ok "",
    crossref := fun _ => .ok none, currentYear := 2026 }

/-! ### supabase_client.py : executor delegation (claim C10)

Every supabase query in the source is issued as execute() inside a lambda
handed to loop.run_in_executor(None, ...).  The call structure of each
operation is transcribed below as a trace of database calls, each tagged with
the table, the kind of query, and whether the source wraps it in
run_in_executor.  Branch-dependent calls (the fallbacks of
_get_or_create_default_research_query, the per-tag loop of add_paper_tags)
are listed along their longest path, which covers every call site. -/

structure DbCall where
  table : String
  op : String
  viaExecutor : Bool
deriving DecidableEq, Repr

def healthCheckCalls : List DbCall :=
  [⟨"research_papers", "select-count", true⟩]

def searchPapersCalls : List DbCall :=
  [⟨"research_papers", "select-count", true⟩,
   ⟨"research_papers", "select", true⟩]

def getPaperDetailsCalls : List DbCall :=
  [⟨"research_papers", "select", true⟩]

def getOrCreateDefaultResearchQueryCalls : List DbCall :=
  [⟨"research_queries", "select", true⟩,
   ⟨"research_queries", "insert", true⟩,
   ⟨"research_queries", "select", true⟩]

def createReadingStatusCalls : List DbCall :=
  [⟨"paper_reading_status", "upsert", true⟩]

def createPaperCalls : List DbCall :=
  getOrCreateDefaultResearchQueryCalls
    ++ [⟨"research_papers", "insert", true⟩]
    ++ createReadingStatusCalls

def updatePaperCalls : List DbCall :=
  [⟨"research_papers", "update", true⟩]

def deletePaperCalls : List DbCall :=
  [⟨"paper_reading_status", "delete", true⟩,
   ⟨"paper_tags", "delete", true⟩,
   ⟨"collection_papers", "delete", true⟩,
   ⟨"research_papers", "delete", true⟩]

def updateReadingStatusCalls : List DbCall :=
  [⟨"paper_reading_status", "upsert", true⟩]

def getCollectionsCalls : List DbCall :=
  [⟨"collection_stats", "select", true⟩]

def addToCollectionCalls : List DbCall :=
  [⟨"collections", "select", true⟩,
   ⟨"collection_papers", "upsert", true⟩]

def addPaperTagsCalls (tag_names : List String) : List DbCall :=
  tag_names.flatMap (fun _ =>
    [⟨"tags", "upsert", true⟩, ⟨"paper_tags", "upsert", true⟩])

def getUserStatsCalls : List DbCall :=
  [⟨"paper_stats_by_user", "select", true⟩]

/-- All database calls of the SupabaseClient operations, for a given tag list
of add_paper_tags. -/
def allSupabaseCalls (tag_names : List String) : List DbCall :=
  healthCheckCalls ++ searchPapersCalls ++ getPaperDetailsCalls
    ++ createPaperCalls ++ updatePaperCalls ++ deletePaperCalls
    ++ updateReadingStatusCalls ++ getCollectionsCalls ++ addToCollectionCalls
    ++ addPaperTagsCalls tag_names ++ getUserStatsCalls

/-! ## Theorems -/

/-- C6: get_task_status returns, for every task_id, the fixed mock record —
status running, progress one half, the fixed created_at timestamp — echoing
only the task_id; in particular it is never None. -/
theorem get_task_status_mock (task_id : String) :
    get_task_status task_id =
      some { task_id := task_id, status := "running", progress := 0.5,
             created_at := "2024-10-19T12:00:00Z" }
      ∧ (get_task_status task_id).isSome = true := by
  exact ⟨rfl, rfl⟩

/-- C7: export_citations returns success with the canned content built only
from the uppercased style and the number of paper ids, and the filename built
from the format; the content is unchanged under replacing the paper id list
by any other list of the same length and the user by any other user. -/
theorem export_citations_mock (paper_ids : List String)
    (style format user_id : String) :
    export_citations paper_ids style format user_id =
      { success := true
        content := "Mock " ++ strUpper style ++ " citations for "
                   ++ toString paper_ids.length ++ " papers"
        filename := "citations." ++ format
        paper_count := paper_ids.length }
    ∧ ∀ (paper_ids2 : List String) (user_id2 : String),
        paper_ids2.length = paper_ids.length →
        (export_citations paper_ids2 style format user_id2).content =
          (export_citations paper_ids style format user_id).content := by
  refine ⟨rfl, ?_⟩
  intro paper_ids2 user_id2 hlen
  simp [export_citations, hlen]

/-- Witness for C7 at concrete inputs: two different id lists of equal length
yield the same content, and the canned record is produced. -/
theorem export_citations_mock_witness :
    (export_citations ["a", "b"] "apa" "bib" "u").content =
      (export_citations ["x", "y"] "apa" "bib" "v").content
    ∧ (export_citations ["x", "y"] "apa" "bib" "v").content =
      "Mock APA citations for 2 papers" := by
  refine ⟨(export_citations_mock ["x", "y"] "apa" "bib" "v").2 ["a", "b"] "u" rfl, ?_⟩
  decide

/-- C5: search_papers builds its query, count, ordering and pagination
without consulting the requesting user_id, so two different users querying
the same database state with the same parameters receive identical results. -/
theorem search_papers_user_independent (db : List DbPaper)
    (user_id1 user_id2 : String) (query : String)
    (filters : Option SearchFilters) (sort : Option String)
    (limit offset : Nat) :
    search_papers db user_id1 query filters sort limit offset =
      search_papers db user_id2 query filters sort limit offset := rfl

/-- C9: the record upserted by update_reading_status contains started_at
exactly when the status argument is reading, completed_at exactly when it is
read, and carries the status, starred and rating arguments unchanged, absent
exactly when the argument is None. -/
theorem update_reading_status_fields (paper_id user_id : String)
    (status : Option String) (starred : Option Bool) (rating : Option Int) :
    ((update_reading_status_record paper_id user_id status starred rating).started_at.isSome
        ↔ status = some "reading")
    ∧ ((update_reading_status_record paper_id user_id status starred rating).completed_at.isSome
        ↔ status = some "read")
    ∧ (update_reading_status_record paper_id user_id status starred rating).status = status
    ∧ (update_reading_status_record paper_id user_id status starred rating).starred = starred
    ∧ (update_reading_status_record paper_id user_id status starred rating).rating = rating
    ∧ ((update_reading_status_record paper_id user_id status starred rating).status.isSome
        ↔ status.isSome)
    ∧ ((update_reading_status_record paper_id user_id status starred rating).starred.isSome
        ↔ starred.isSome)
    ∧ ((update_reading_status_record paper_id user_id status starred rating).rating.isSome
        ↔ rating.isSome)
    ∧ (update_reading_status_record paper_id user_id status starred rating).paper_id = paper_id
    ∧ (update_reading_status_record paper_id user_id status starred rating).user_id = user_id := by
  refine ⟨?_, ?_, rfl, rfl, rfl, Iff.rfl, Iff.rfl, Iff.rfl, rfl, rfl⟩
  · by_cases h : status = some "reading" <;>
      simp [update_reading_status_record, h]
  · by_cases h : status = some "read" <;>
      simp [update_reading_status_record, h]

/-- C10: every database call issued by the SupabaseClient operations (health
check, search, get, create, update, delete, reading status, collections,
tags, stats) is delegated to the thread-pool executor, for every tag list
passed to add_paper_tags. -/
theorem supabase_executor_delegation (tag_names : List String) :
    ∀ c ∈ allSupabaseCalls tag_names, c.viaExecutor = true := by
  intro c hc
  simp only [allSupabaseCalls, List.mem_append, or_assoc] at hc
  rcases hc with h | h | h | h | h | h | h | h | h | h | h
  · exact (by decide : ∀ x ∈ healthCheckCalls, x.viaExecutor = true) _ h
  · exact (by decide : ∀ x ∈ searchPapersCalls, x.viaExecutor = true) _ h
  · exact (by decide : ∀ x ∈ getPaperDetailsCalls, x.viaExecutor = true) _ h
  · exact (by decide : ∀ x ∈ createPaperCalls, x.viaExecutor = true) _ h
  · exact (by decide : ∀ x ∈ updatePaperCalls, x.viaExecutor = true) _ h
  · exact (by decide : ∀ x ∈ deletePaperCalls, x.viaExecutor = true) _ h
  · exact (by decide : ∀ x ∈ updateReadingStatusCalls, x.viaExecutor = true) _ h
  · exact (by decide : ∀ x ∈ getCollectionsCalls, x.viaExecutor = true) _ h
  · exact (by decide : ∀ x ∈ addToCollectionCalls, x.viaExecutor = true) _ h
  · simp only [addPaperTagsCalls] at h
    rcases List.mem_flatMap.mp h with ⟨a, _, hmem⟩
    exact (by decide :
      ∀ x ∈ ([⟨"tags", "upsert", true⟩, ⟨"paper_tags", "upsert", true⟩] : List DbCall),
        x.viaExecutor = true) _ hmem
  · exact (by decide : ∀ x ∈ getUserStatsCalls, x.viaExecutor = true) _ h

/-- Helper: removing the failed connections from a set is the same as keeping
the successful ones. -/
theorem sdiff_filter_not_eq (s : Finset Conn) (f : Conn → Bool) :
    s \ s.filter (fun c => f c = false) = s.filter (fun c => f c = true) := by
  ext c
  simp only [Finset.mem_sdiff, Finset.mem_filter]
  cases hf : f c <;> simp [hf]

/-- Helper: the concrete one-user state satisfies the registry invariant. -/
theorem exConnState_invariant : ConnInvariant exConnState := by
  intro u s h
  by_cases hu : u = "alice"
  · subst hu
    simp only [exConnState, if_pos rfl] at h
    cases Option.some.inj h
    exact Finset.singleton_nonempty 0
  · simp [exConnState, hu] at h

/-- Helper: pointwise description of connect. -/
theorem connect_apply (st : ConnState) (ws : Conn) (uid u : String) :
    connect st ws uid u =
      if u = uid then some (insert ws ((st uid).getD ∅)) else st u := by
  cases hst : st uid <;> by_cases hu : u = uid <;>
    simp [connect, updateKey, hst, hu]

/-- Helper: pointwise description of disconnect. -/
theorem disconnect_apply (st : ConnState) (ws : Conn) (uid u : String) :
    disconnect st ws uid u =
      match st uid with
      | none => st u
      | some s0 =>
        if u = uid then
          (if s0.erase ws = ∅ then none else some (s0.erase ws))
        else st u := by
  cases hst : st uid <;> by_cases hu : u = uid <;>
    by_cases he : (Option.getD (st uid) ∅).erase ws = ∅ <;>
    simp_all [disconnect, updateKey]

/-- Helper: pointwise description of the state after send_personal_message. -/
theorem send_personal_message_apply (sendOk : Conn → Bool) (message : String)
    (st : ConnState) (uid u : String) :
    (send_personal_message sendOk message st uid).1 u =
      match st uid with
      | none => st u
      | some s =>
        if u = uid then some (s.filter (fun c => sendOk c = true)) else st u := by
  cases hst : st uid <;> by_cases hu : u = uid <;>
    simp [send_personal_message, updateKey, hst, hu, sdiff_filter_not_eq]

/-- C3: send_personal_message attempts the send on exactly the connections
registered under the user id, afterwards keeps exactly those whose send
succeeded, leaves every other user id untouched, and does nothing when the
user id has no registered connections. -/
theorem send_personal_message_spec (sendOk : Conn → Bool) (message : String)
    (st : ConnState) (uid : String) :
    let r := send_personal_message sendOk message st uid
    (∀ s, st uid = some s →
        r.2 = s ∧ r.1 uid = some (s.filter (fun c => sendOk c = true)))
    ∧ (∀ u, u ≠ uid → r.1 u = st u)
    ∧ (st uid = none → r.1 = st ∧ r.2 = ∅) := by
  refine ⟨?_, ?_, ?_⟩
  · intro s hs
    refine ⟨?_, ?_⟩
    · simp [send_personal_message, hs]
    · simp [send_personal_message, hs, updateKey, sdiff_filter_not_eq]
  · intro u hu
    cases hst : st uid with
    | none => simp [send_personal_message, hst]
    | some s => simp [send_personal_message, hst, updateKey, hu]
  · intro hst
    simp [send_personal_message, hst]

/-- Witness for C3 at a concrete state: the attempted set is the registered
set of alice, and bob's (absent) entry is untouched. -/
theorem send_personal_message_spec_witness :
    (send_personal_message (fun _ => true) "m" exConnState "alice").2 =
      ({0} : Finset Conn)
    ∧ (send_personal_message (fun _ => true) "m" exConnState "alice").1 "bob" =
      exConnState "bob" := by
  have h := send_personal_message_spec (fun _ => true) "m" exConnState "alice"
  exact ⟨(h.1 {0} (by decide)).1, h.2.1 "bob" (by decide)⟩

/-- C8 counterexample: the invariant that every registered user id maps to a
non-empty connection set holds of the one-user state, yet fails after
send_personal_message when every send raises: the user's key survives holding
the empty set. -/
theorem send_empties_key_counterexample :
    ConnInvariant exConnState
    ∧ ¬ ConnInvariant
        (send_personal_message (fun _ => false) "m" exConnState "alice").1 := by
  refine ⟨exConnState_invariant, ?_⟩
  intro hinv
  have h := hinv "alice" ∅ (by decide)
  simp at h

/-- C8 amended: connect and disconnect preserve the non-empty-sets invariant;
send_personal_message (and broadcast_to_user, which delegates to it) preserve
it when the user id is unregistered or when at least one of its registered
connections sends successfully — when every send raises, the key is left
mapped to the empty set (see the counterexample). -/
theorem connection_manager_invariant_amended :
    (∀ st ws uid, ConnInvariant st → ConnInvariant (connect st ws uid))
    ∧ (∀ st ws uid, ConnInvariant st → ConnInvariant (disconnect st ws uid))
    ∧ (∀ sendOk message st uid, ConnInvariant st → st uid = none →
        ConnInvariant (send_personal_message sendOk message st uid).1)
    ∧ (∀ sendOk message st uid s, ConnInvariant st → st uid = some s →
        (s.filter (fun c => sendOk c = true)).Nonempty →
        ConnInvariant (send_personal_message sendOk message st uid).1)
    ∧ (∀ sendOk st uid event data timestamp s, ConnInvariant st →
        st uid = some s → (s.filter (fun c => sendOk c = true)).Nonempty →
        ConnInvariant (broadcast_to_user sendOk st uid event data timestamp).1) := by
  have hsend : ∀ (sendOk : Conn → Bool) (message : String) (st : ConnState)
      (uid : String) (s : Finset Conn), ConnInvariant st → st uid = some s →
      (s.filter (fun c => sendOk c = true)).Nonempty →
      ConnInvariant (send_personal_message sendOk message st uid).1 := by
    intro sendOk message st uid s hinv hst hne u s' h
    rw [send_personal_message_apply, hst] at h
    dsimp only at h
    by_cases hu : u = uid
    · rw [if_pos hu] at h
      cases Option.some.inj h
      exact hne
    · rw [if_neg hu] at h
      exact hinv u s' h
  refine ⟨?_, ?_, ?_, hsend, ?_⟩
  · intro st ws uid hinv u s h
    rw [connect_apply] at h
    by_cases hu : u = uid
    · rw [if_pos hu] at h
      cases Option.some.inj h
      exact Finset.insert_nonempty ws _
    · rw [if_neg hu] at h
      exact hinv u s h
  · intro st ws uid hinv u s h
    rw [disconnect_apply] at h
    cases hst : st uid with
    | none =>
      rw [hst] at h
      exact hinv u s h
    | some s0 =>
      rw [hst] at h
      dsimp only at h
      by_cases hu : u = uid
      · rw [if_pos hu] at h
        by_cases he : s0.erase ws = ∅
        · rw [if_pos he] at h
          cases h
        · rw [if_neg he] at h
          cases Option.some.inj h
          exact Finset.nonempty_iff_ne_empty.mpr he
      · rw [if_neg hu] at h
        exact hinv u s h
  · intro sendOk message st uid hinv hst u s h
    rw [send_personal_message_apply, hst] at h
    exact hinv u s h
  · intro sendOk st uid event data timestamp s hinv hst hne
    exact hsend sendOk
      ("event=" ++ event ++ ";data=" ++ data ++ ";timestamp=" ++ timestamp)
      st uid s hinv hst hne

/-- Witness for the amended C8 at a concrete state: a successful send on
alice's connection preserves the invariant. -/
theorem connection_manager_invariant_amended_witness :
    ConnInvariant (send_personal_message (fun _ => true) "m" exConnState "alice").1 := by
  exact connection_manager_invariant_amended.2.2.2.1 (fun _ => true) "m" exConnState
    "alice" {0} exConnState_invariant (by decide) (by decide)

/-- Witness for C10 at a concrete tag list and a concrete member call. -/
theorem supabase_executor_delegation_witness :
    DbCall.viaExecutor ⟨"tags", "upsert", true⟩ = true := by
  exact supabase_executor_delegation ["ml"] ⟨"tags", "upsert", true⟩ (by decide)

/-- Helper: dropWhile is idempotent. -/
theorem dropWhile_idem (p : Char → Bool) (l : List Char) :
    (l.dropWhile p).dropWhile p = l.dropWhile p := by
  induction l with
  | nil => rfl
  | cons c cs ih =>
    by_cases h : p c
    · simp [List.dropWhile_cons, h, ih]
    · simp [List.dropWhile_cons, h]

/-- Helper: stripping the trailing punctuation is idempotent, i.e. a stripped
candidate has no trailing character from the stripped set. -/
theorem rstripJunk_idem (l : List Char) :
    rstripJunk (rstripJunk l) = rstripJunk l := by
  simp [rstripJunk, List.reverse_reverse, dropWhile_idem]

/-- C4: _find_doi_in_text returns None on empty text and whenever no pattern
produces a candidate; and every DOI it returns passes _is_valid_doi — the
anchored pattern of 10 dot, four or more digits, slash, non-whitespace — is
unchanged by the trailing-punctuation strip (so it ends in no character of
the stripped set), and is longer than 10 characters. -/
theorem find_doi_in_text_spec (text : String) :
    (text = "" → find_doi_in_text text = none)
    ∧ (doiCandidates text.data = [] → find_doi_in_text text = none)
    ∧ (∀ d, find_doi_in_text text = some d →
        isValidDoi d.data = true ∧ rstripJunk d.data = d.data ∧ 10 < d.length) := by
  refine ⟨?_, ?_, ?_⟩
  · intro h
    simp [find_doi_in_text, h]
  · intro h
    by_cases ht : text = ""
    · simp [find_doi_in_text, ht]
    · simp [find_doi_in_text, ht, h]
  · intro d hd
    by_cases ht : text = ""
    · simp [find_doi_in_text, ht] at hd
    · simp only [find_doi_in_text, if_neg ht] at hd
      obtain ⟨l, hl, rfl⟩ := Option.map_eq_some'.mp hd
      have hval : isValidDoi l = true := List.find?_some hl
      have hmem : l ∈ (doiCandidates text.data).map rstripJunk :=
        List.mem_of_find?_eq_some hl
      obtain ⟨c, _, rfl⟩ := List.mem_map.mp hmem
      refine ⟨hval, rstripJunk_idem c, ?_⟩
      have hlen := (Bool.and_eq_true_iff.mp hval).2
      exact of_decide_eq_true hlen

/-- Witness for C4: the empty text yields None, and a concrete labelled DOI
is extracted and certified valid. -/
theorem find_doi_in_text_spec_witness :
    find_doi_in_text "" = none
    ∧ find_doi_in_text "doi: 10.1234/abcdef" = some "10.1234/abcdef"
    ∧ isValidDoi "10.1234/abcdef".data = true := by
  refine ⟨(find_doi_in_text_spec "").1 rfl, rfl, ?_⟩
  exact ((find_doi_in_text_spec "doi: 10.1234/abcdef").2.2 "10.1234/abcdef" rfl).1

/-- Helper: when the basic and text phases succeed and the Crossref stage
yields nothing usable, extract_pdf_metadata reduces to the no-Crossref tail
of the cascade. -/
theorem extractCore_noCrossref (env : ExtractEnv) (filename : String)
    (bp : BasicProps) (text : String)
    (hb : env.basic = Except.ok bp) (ht : env.firstPageText = Except.ok text)
    (hnc : noCrossrefResult env text) :
    extract_pdf_metadata env filename =
      finishNoCrossref env.currentYear filename (applyBasic initMetadata bp) text := by
  have hcore : extractCore env filename =
      Except.ok (finishNoCrossref env.currentYear filename
        (applyBasic initMetadata bp) text) := by
    unfold extractCore
    rw [hb, ht]
    dsimp only
    rcases hnc with hnone | ⟨d, hd, hcr⟩
    · rw [hnone]
    · rw [hd]
      dsimp only
      rw [hcr]
  unfold extract_pdf_metadata
  rw [hcore]

/-- Helper: when a DOI is found and the Crossref lookup succeeds, the result
is the Crossref-updated metadata marked crossref. -/
theorem extractCore_crossref (env : ExtractEnv) (filename : String)
    (bp : BasicProps) (text : String) (d : String) (cr : CrossrefMeta)
    (hb : env.basic = Except.ok bp) (ht : env.firstPageText = Except.ok text)
    (hd : find_doi_in_text text = some d)
    (hcr : env.crossref d = Except.ok (some cr)) :
    extract_pdf_metadata env filename =
      { applyCrossref (applyBasic initMetadata bp) d cr with
        extraction_method := "crossref", extraction_confidence := 0.95 } := by
  have hcore : extractCore env filename =
      Except.ok { applyCrossref (applyBasic initMetadata bp) d cr with
        extraction_method := "crossref", extraction_confidence := 0.95 } := by
    unfold extractCore
    rw [hb, ht]
    dsimp only
    rw [hd]
    dsimp only
    rw [hcr]
  unfold extract_pdf_metadata
  rw [hcore]

/-- Helper: the three outcomes of the tail of the cascade, assuming the
incoming metadata is still unmarked (as applyBasic leaves it). -/
theorem finishNoCrossref_cases (cy : Int) (fn : String) (m1 : Metadata)
    (text : String) (hm1 : m1.extraction_method = "none") :
    (((textPhase cy m1 text).title ≠ "" ∨ (textPhase cy m1 text).authors ≠ []) →
      (text ≠ "" →
        (finishNoCrossref cy fn m1 text).extraction_method = "text_parsing"
        ∧ (finishNoCrossref cy fn m1 text).extraction_confidence = 0.6)
      ∧ (text = "" →
        (finishNoCrossref cy fn m1 text).extraction_method = "pdf_properties"
        ∧ (finishNoCrossref cy fn m1 text).extraction_confidence = 0.7))
    ∧ (((textPhase cy m1 text).title = "" ∧ (textPhase cy m1 text).authors = []) →
      (finishNoCrossref cy fn m1 text).extraction_method = "filename"
      ∧ (finishNoCrossref cy fn m1 text).extraction_confidence = 0.3
      ∧ (finishNoCrossref cy fn m1 text).title = clean_filename_for_title fn) := by
  constructor
  · intro hTA
    constructor
    · intro htext
      have hm2 : (textPhase cy m1 text).extraction_method = "text_parsing" := by
        simp [textPhase, htext]
      have hres : finishNoCrossref cy fn m1 text = textPhase cy m1 text := by
        simp only [finishNoCrossref]
        rw [if_pos hTA, if_neg (by rw [hm2]; decide)]
      rw [hres]
      refine ⟨hm2, ?_⟩
      simp [textPhase, htext]
    · intro htext
      have hm2eq : textPhase cy m1 text = m1 := by
        simp [textPhase, htext]
      have hres : finishNoCrossref cy fn m1 text =
          { textPhase cy m1 text with
            extraction_method := "pdf_properties", extraction_confidence := 0.7 } := by
        simp only [finishNoCrossref]
        rw [if_pos hTA, if_pos (by rw [hm2eq]; exact hm1)]
      rw [hres]
      exact ⟨rfl, rfl⟩
  · intro hnoTA
    have hres : finishNoCrossref cy fn m1 text =
        { textPhase cy m1 text with
          title := clean_filename_for_title fn,
          extraction_method := "filename", extraction_confidence := 0.3 } := by
      simp only [finishNoCrossref]
      rw [if_neg (by simp [hnoTA.1, hnoTA.2])]
    rw [hres]
    exact ⟨rfl, rfl, rfl⟩

/-- C1 counterexample: with no PDF properties and the non-empty first page
text hi (which contains no DOI and defeats every text heuristic), the source
returns extraction_method filename — not text_parsing as the claimed cascade
order requires for non-empty text. -/
theorem extract_cascade_filename_overrides_text_parsing :
    envC1.firstPageText = Except.ok "hi"
    ∧ ("hi" : String) ≠ ""
    ∧ find_doi_in_text "hi" = none
    ∧ (extract_pdf_metadata envC1 "x.pdf").extraction_method = "filename"
    ∧ (extract_pdf_metadata envC1 "x.pdf").extraction_method ≠ "text_parsing"
    ∧ (extract_pdf_metadata envC1 "x.pdf").extraction_confidence = 0.3 := by
  exact ⟨rfl, by decide, rfl, rfl, by decide, rfl⟩

/-- C1 amended: the cascade as implemented.  When the effectful phases
succeed: a found DOI whose Crossref lookup succeeds returns crossref with
confidence 0.95; otherwise the text phase and the properties check run, and
the method is text_parsing (0.6) for non-empty text respectively
pdf_properties (0.7) for empty text whenever the merged metadata has a title
or authors — but when it has neither, the filename fallback overrides even a
completed text-parsing phase with method filename, confidence 0.3 and a
title cleaned from the filename. -/
theorem extract_pdf_metadata_cascade (env : ExtractEnv) (filename : String)
    (bp : BasicProps) (text : String)
    (hb : env.basic = Except.ok bp) (ht : env.firstPageText = Except.ok text) :
    (∀ d cr, find_doi_in_text text = some d →
        env.crossref d = Except.ok (some cr) →
        (extract_pdf_metadata env filename).extraction_method = "crossref"
        ∧ (extract_pdf_metadata env filename).extraction_confidence = 0.95)
    ∧ (noCrossrefResult env text →
        (((textPhase env.currentYear (applyBasic initMetadata bp) text).title ≠ ""
            ∨ (textPhase env.currentYear (applyBasic initMetadata bp) text).authors ≠ []) →
          (text ≠ "" →
            (extract_pdf_metadata env filename).extraction_method = "text_parsing"
            ∧ (extract_pdf_metadata env filename).extraction_confidence = 0.6)
          ∧ (text = "" →
            (extract_pdf_metadata env filename).extraction_method = "pdf_properties"
            ∧ (extract_pdf_metadata env filename).extraction_confidence = 0.7))
        ∧ (((textPhase env.currentYear (applyBasic initMetadata bp) text).title = ""
            ∧ (textPhase env.currentYear (applyBasic initMetadata bp) text).authors = []) →
          (extract_pdf_metadata env filename).extraction_method = "filename"
          ∧ (extract_pdf_metadata env filename).extraction_confidence = 0.3
          ∧ (extract_pdf_metadata env filename).title =
              clean_filename_for_title filename)) := by
  constructor
  · intro d cr hd hcr
    rw [extractCore_crossref env filename bp text d cr hb ht hd hcr]
    exact ⟨rfl, rfl⟩
  · intro hnc
    rw [extractCore_noCrossref env filename bp text hb ht hnc]
    exact finishNoCrossref_cases env.currentYear filename
      (applyBasic initMetadata bp) text rfl

/-- Witness for the amended C1: with a property title and an empty first
page, the theorem yields the pdf_properties outcome. -/
theorem extract_pdf_metadata_cascade_witness :
    (extract_pdf_metadata envProps "x.pdf").extraction_method = "pdf_properties"
    ∧ (extract_pdf_metadata envProps "x.pdf").extraction_confidence = 0.7 := by
  have h := extract_pdf_metadata_cascade envProps "x.pdf" { title := some "T" } ""
    rfl rfl
  exact ((h.2 (Or.inl rfl)).1 (Or.inl (by decide))).2 rfl

/-- C2: whenever a phase of the pipeline raises, extract_pdf_metadata still
returns a metadata dict, whose method is error with confidence 0.1, whose
error field carries the exception message, and whose title is the cleaned
filename.  (Totality — that a dict is always returned — is inherent in the
embedding: extract_pdf_metadata is a total function.) -/
theorem extract_pdf_metadata_error_fallback (env : ExtractEnv)
    (filename : String) (e : String) (m : Metadata)
    (h : extractCore env filename = Except.error (e, m)) :
    (extract_pdf_metadata env filename).extraction_method = "error"
    ∧ (extract_pdf_metadata env filename).extraction_confidence = 0.1
    ∧ (extract_pdf_metadata env filename).error = some e
    ∧ (extract_pdf_metadata env filename).title = clean_filename_for_title filename := by
  unfold extract_pdf_metadata
  rw [h]
  exact ⟨rfl, rfl, rfl, rfl⟩

/-- Witness for C2: a basic-properties phase raising boom produces the error
metadata with the cleaned filename title. -/
theorem extract_pdf_metadata_error_fallback_witness :
    (extract_pdf_metadata envC2 "my_file.pdf").extraction_method = "error"
    ∧ (extract_pdf_metadata envC2 "my_file.pdf").extraction_confidence = 0.1
    ∧ (extract_pdf_metadata envC2 "my_file.pdf").error = some "boom"
    ∧ (extract_pdf_metadata envC2 "my_file.pdf").title = "My File" := by
  have h := extract_pdf_metadata_error_fallback envC2 "my_file.pdf" "boom"
    initMetadata rfl
  exact ⟨h.1, h.2.1, h.2.2.1, (h.2.2.2).trans rfl⟩

end RefMan
